import Mathlib

/-!
Verification of the natural-language specification of the
`valyamoro/pet-project6` service (a Go HTTP service in `main.go` plus
a small database helper in `pkg/database/psql.go`) against a shallow
embedding of its code in Lean 4.

Conventions of the embedding:
* Go slices `[]T` distinguish the nil slice from an empty non-nil
  slice (`encoding/json` marshals nil as `null` and an empty non-nil
  slice as `[]`), so a Go slice is modelled as `Option (List α)` with
  `none` standing for the nil slice.
* Byte strings produced by the serializers are modelled one level up:
  the JSON wire bytes are a `Json` syntax tree together with the
  deterministic renderer `jsonRender` (mirroring `encoding/json`'s
  compact output), and a gob stream is its self-describing
  type-tagged content `GobValue` (gob's wire format is injective on
  the encoded type and value, which is all the claims need).
* `time.Time` values are modelled as integer nanosecond readings of a
  monotone clock, and `float64` durations as rationals; `time.Now`'s
  monotonic reading never decreases, which appears as a monotonicity
  hypothesis on the caller-supplied action where it matters.
* Fallible Go code returning `(value, error)` pairs is modelled with
  `Except` when the code stops on the error, and with an explicit
  `value × Option String` pair when the Go code keeps both results.
* The unbounded `for` loop of `fetchAllPlaces` is modelled with an
  explicit fuel parameter; every theorem about it supplies enough fuel.
-/

/-- Structure `Place` from main.go lines 21-30: a flat record of the upstream
venue fields. -/
structure Place where
  Id : Int
  Title : String
  Slug : String
  Address : String
  Phone : String
  Subway : String
  IsClosed : Bool
  Location : String
deriving DecidableEq, Repr

/-- A Go slice `[]α`: `none` is the nil slice, `some xs` a non-nil
slice with elements `xs`. -/
def GoSlice (α : Type) : Type := Option (List α)

instance (α : Type) [DecidableEq α] : DecidableEq (GoSlice α) := by
  unfold GoSlice; infer_instance

/-- The elements of a Go slice (nil and empty coincide). -/
def GoSlice.toList {α : Type} : GoSlice α → List α
  | none => []
  | some xs => xs

/-- Go's `append(s, ys...)`: appending zero elements returns `s`
unchanged (a nil slice stays nil); appending at least one element to
nil allocates a non-nil slice. -/
def GoSlice.append {α : Type} (s : GoSlice α) (ys : List α) : GoSlice α :=
  match ys with
  | [] => s
  | _ => some (s.toList ++ ys)

/-- Structure `ExecutionLog` from main.go lines 83-89.  `StartTime`/`EndTime`
are nanosecond clock readings; `DurationSeconds` (a Go `float64`) is
modelled as a rational. -/
structure ExecutionLog where
  Id : Int
  TaskName : String
  StartTime : Int
  EndTime : Int
  DurationSeconds : Rat
deriving DecidableEq, Repr

/-! ## JSON model (`encoding/json` restricted to the shapes this
program marshals and unmarshals) -/

/-- A JSON document. -/
inductive Json where
  | null : Json
  | bool (b : Bool) : Json
  | num (n : Int) : Json
  | str (s : String) : Json
  | arr (xs : List Json) : Json
  | obj (fields : List (String × Json)) : Json

/-- Semantics of `json.Marshal` on a single `Place`: an object whose keys are the
exported field names in declaration order (the struct has no tags). -/
def jsonMarshalPlace (p : Place) : Json :=
  .obj [("Id", .num p.Id), ("Title", .str p.Title), ("Slug", .str p.Slug),
        ("Address", .str p.Address), ("Phone", .str p.Phone),
        ("Subway", .str p.Subway), ("IsClosed", .bool p.IsClosed),
        ("Location", .str p.Location)]

/-- Semantics of `json.Marshal` on a `[]Place`: the nil slice marshals as `null`,
a non-nil slice as an array of the marshalled elements. -/
def jsonMarshalPlaces (s : GoSlice Place) : Json :=
  match s with
  | none => .null
  | some xs => .arr (xs.map jsonMarshalPlace)

/-- Compact rendering of a JSON string literal.  `encoding/json`
escapes the quote, the backslash, control characters and the HTML
characters; none of the claims exercises those, so the escape table
covers exactly them and leaves other characters as themselves. -/
def jsonEscapeChar (c : Char) : String :=
  if c = '"' then "\\\""
  else if c = '\\' then "\\\\"
  else if c = '\n' then "\\n"
  else if c = '\r' then "\\r"
  else if c = '\t' then "\\t"
  else if c = '<' then "\\u003c"
  else if c = '>' then "\\u003e"
  else if c = '&' then "\\u0026"
  else if c.toNat < 32 then "\\u00" ++ (Nat.toDigits 16 c.toNat).asString
  else String.singleton c

/-- Rendering of the separator-interleaved pieces of an aggregate. -/
def jsonJoin (pieces : List String) : String :=
  match pieces with
  | [] => ""
  | p :: ps => ps.foldl (fun acc q => acc ++ "," ++ q) p

mutual

/-- The compact (no whitespace) rendering `encoding/json` produces. -/
def jsonRender : Json → String
  | .null => "null"
  | .bool true => "true"
  | .bool false => "false"
  | .num n => toString n
  | .str s => "\"" ++ String.join (s.toList.map jsonEscapeChar) ++ "\""
  | .arr xs => "[" ++ jsonJoin (jsonRenderList xs) ++ "]"
  | .obj fs => "\x7b" ++ jsonJoin (jsonRenderFields fs) ++ "\x7d"

/-- Renders each element of a JSON array. -/
def jsonRenderList : List Json → List String
  | [] => []
  | x :: xs => jsonRender x :: jsonRenderList xs

/-- Renders each `"key":value` field of a JSON object. -/
def jsonRenderFields : List (String × Json) → List String
  | [] => []
  | (k, v) :: fs =>
      ("\"" ++ String.join (k.toList.map jsonEscapeChar) ++ "\":" ++ jsonRender v)
        :: jsonRenderFields fs

end

/-- Semantics of `json.Unmarshal` of a document into a single `Place`
(`var result Place`): an object decodes field-wise (absent fields keep
their zero values, unknown keys are ignored), `null` leaves the zero
value in place, and any other document kind is a type error, in
particular an array cannot be unmarshalled into a struct. -/
def jsonUnmarshalPlace (j : Json) : Except String Place :=
  match j with
  | .null => .ok ⟨0, "", "", "", "", "", false, ""⟩
  | .obj fs =>
      let lookStr := fun (k : String) =>
        match fs.lookup k with
        | some (.str s) => some s
        | _ => none
      let idVal :=
        match fs.lookup "Id" with
        | some (.num n) => n
        | _ => 0
      let closedVal :=
        match fs.lookup "IsClosed" with
        | some (.bool b) => b
        | _ => false
      .ok ⟨idVal, (lookStr "Title").getD "", (lookStr "Slug").getD "",
           (lookStr "Address").getD "", (lookStr "Phone").getD "",
           (lookStr "Subway").getD "", closedVal,
           (lookStr "Location").getD ""⟩
  | .arr _ => .error "json: cannot unmarshal array into Go value of type main.Place"
  | .bool _ => .error "json: cannot unmarshal bool into Go value of type main.Place"
  | .num _ => .error "json: cannot unmarshal number into Go value of type main.Place"
  | .str _ => .error "json: cannot unmarshal string into Go value of type main.Place"

/-! ## Gob model (`encoding/gob` at the granularity the claims need) -/

/-- The content of a gob stream: gob is self-describing, so the stream
determines the transmitted type and value.  The program only ever
encodes a `[]Place` (from `Serialize`) and a `Place` would be the type
required by `Deserialize`. -/
inductive GobValue where
  | placeSlice (xs : List Place) : GobValue
  | place (p : Place) : GobValue
deriving DecidableEq, Repr

/-- Semantics of `gob.Decode` into a `var result Place`: a stream carrying a
`[]Place` is a remote/local type mismatch. -/
def gobDecodePlace (v : GobValue) : Except String Place :=
  match v with
  | .place p => .ok p
  | .placeSlice _ =>
      .error "gob: decoding into local type main.Place, received remote type []main.Place"

/-! ## The serializer abstraction (main.go lines 32-75) -/

/-- The serialized byte strings the two serializers can produce,
one level above raw bytes: JSON bytes are the rendering of a `Json`
document, gob bytes the encoding of a `GobValue`. -/
inductive Bytes where
  | jsonBytes (j : Json) : Bytes
  | gobBytes (v : GobValue) : Bytes

/-- The two implementations of `Serializer[Place]` that
`GetSerializer` can return. -/
inductive SerializerChoice where
  | json : SerializerChoice
  | gob : SerializerChoice
deriving DecidableEq, Repr

/-- Method `Serialize` of the chosen serializer on a `[]Place`, keeping Go's
`([]byte, error)` pair: `JSONSerializer.Serialize` is `json.Marshal`
(which cannot fail on `Place`, a struct of ints, strings and bools)
and `GobSerializer.Serialize` encodes the slice into a buffer (which
cannot fail either: the type is gob-encodable and the buffer write is
infallible). -/
def serializerSerialize (c : SerializerChoice) (data : GoSlice Place) :
    Bytes × Option String :=
  match c with
  | .json => (.jsonBytes (jsonMarshalPlaces data), none)
  | .gob => (.gobBytes (.placeSlice data.toList), none)

/-- Method `Deserialize` of the chosen serializer, which decodes into a
single `var result Place` (main.go lines 43-47 and 58-64). -/
def serializerDeserialize (c : SerializerChoice) (data : Bytes) :
    Except String Place :=
  match c, data with
  | .json, .jsonBytes j => jsonUnmarshalPlace j
  | .gob, .gobBytes v => gobDecodePlace v
  | .json, .gobBytes _ => .error "invalid character looking for beginning of value"
  | .gob, .jsonBytes _ => .error "gob: encoded unsigned integer out of range"

/-- Function `GetSerializer` (main.go lines 66-75): dispatch on the format
string, with the unknown-format error message of line 73. -/
def GetSerializer (format : String) : Except String SerializerChoice :=
  match format with
  | "json" => .ok .json
  | "gob" => .ok .gob
  | _ => .error ("Неизвестный формат сериализации: " ++ format)

/-! ## Paginated fetcher (main.go lines 207-253) -/

/-- One observable step of `fetchAllPlaces` against the upstream. -/
inductive FetchEvent where
  | request (page : Nat) : FetchEvent
  | decodeOk (page : Nat) : FetchEvent
  | decodeErr (page : Nat) : FetchEvent
  | closeBody (page : Nat) : FetchEvent
deriving DecidableEq, Repr

/-- The upstream's behavior on one `GET {baseURL}?page={n}`:
the transport can fail (`client.Do` returns an error and no body),
the body can fail to unmarshal, or it decodes to
`{results: [...], next: string}` (main.go lines 234-237; an absent or
null `results` field leaves the nil slice). -/
inductive UpstreamResp where
  | netErr (msg : String) : UpstreamResp
  | malformed : UpstreamResp
  | page (results : GoSlice Place) (next : String) : UpstreamResp

/-- The loop of `fetchAllPlaces`, instrumented with the event trace.
`defers` is the stack of `defer resp.Body.Close()` calls accumulated
so far, most recent first: in Go a `defer` inside a loop body does not
run at the end of the iteration but when the function returns, in LIFO
order.  The function returns the Go result, the events of the loop
itself, and the final defer stack; `fuel` bounds the number of
iterations of the source's unbounded `for`. -/
def fetchLoop (upstream : Nat → UpstreamResp) :
    Nat → Nat → GoSlice Place → List Nat → List FetchEvent →
    Except String (GoSlice Place) × List FetchEvent × List Nat
  | 0, _, _, defers, evs => (.error "out of fuel", evs, defers)
  | fuel + 1, page, acc, defers, evs =>
    match upstream page with
    | .netErr m =>
        (.error ("error sending request: " ++ m),
         evs ++ [.request page], defers)
    | .malformed =>
        (.error "error unmarshalling response",
         evs ++ [.request page, .decodeErr page], page :: defers)
    | .page results next =>
        let acc := acc.append results.toList
        let evs := evs ++ [.request page, .decodeOk page]
        let defers := page :: defers
        if next = "" then (.ok acc, evs, defers)
        else fetchLoop upstream fuel (page + 1) acc defers evs

/-- Function `fetchAllPlaces`: starts at the hardcoded `page := 210` with the
nil `allPlaces` slice, and on return (normal or error) runs the
accumulated deferred body closes, most recent first. -/
def fetchAllPlaces (upstream : Nat → UpstreamResp) (fuel : Nat) :
    Except String (GoSlice Place) × List FetchEvent :=
  let (res, evs, defers) := fetchLoop upstream fuel 210 none [] []
  (res, evs ++ defers.map .closeBody)

/-- The pages of the `request` events of a trace, in order. -/
def requestedPages (evs : List FetchEvent) : List Nat :=
  evs.filterMap fun e =>
    match e with
    | .request p => some p
    | _ => none

/-! ## Async log sink (main.go lines 108-125, 141-158, 196-205) -/

/-- The shared state of the log pipeline: the buffered channel's
content, the wait-group counter, what has been handed to
`storeExecutionLog` (with the insert's success flag), and whether the
channel has been closed. -/
structure SinkState where
  queue : List ExecutionLog
  inFlight : Nat
  persisted : List (ExecutionLog × Bool)
  closed : Bool
deriving Repr

/-- The initial state made in `main` (line 108): an empty channel of
capacity 100, a zero wait-group. -/
def initialSinkState : SinkState :=
  { queue := [], inFlight := 0, persisted := [], closed := false }

/-- Channel `logChan` is `make(chan ExecutionLog, 100)` (main.go line 108). -/
def logChanCapacity : Nat := 100

/-- The three kinds of steps the pipeline's code can take. -/
inductive SinkStep where
  | enqueue (e : ExecutionLog) : SinkStep
  | consume : SinkStep
  | close : SinkStep
deriving Repr

/-- One step of the pipeline.  `consumerRunning` records whether a
goroutine executing `proccesLog` exists; `persistOk e` is the storage
oracle saying whether `storeExecutionLog e` succeeds.  `enqueue` is
the producer side of `LogExecutionTime` (lines 156-157:
`wg.Add(1); logChan <- e`), enabled while the channel is open and not
full; `consume` is one iteration of `proccesLog`'s
`for logEntry := range app.LogChan` body (lines 197-204): pop the
oldest record, call `storeExecutionLog`, on error only print, then
`wg.Done()`; `close` is `close(logChan)` (line 123). -/
def sinkStep (consumerRunning : Bool) (persistOk : ExecutionLog → Bool)
    (s : SinkState) : SinkStep → SinkState
  | .enqueue e =>
      if s.closed ∨ logChanCapacity ≤ s.queue.length then s
      else { s with queue := s.queue ++ [e], inFlight := s.inFlight + 1 }
  | .consume =>
      if consumerRunning then
        match s.queue with
        | [] => s
        | e :: rest =>
            { s with queue := rest,
                     persisted := s.persisted ++ [(e, persistOk e)],
                     inFlight := s.inFlight - 1 }
      else s
  | .close => { s with closed := true }

/-- Runs a schedule of steps. -/
def sinkRun (consumerRunning : Bool) (persistOk : ExecutionLog → Bool)
    (s : SinkState) (steps : List SinkStep) : SinkState :=
  steps.foldl (sinkStep consumerRunning persistOk) s

/-- Function `main` (lines 91-126) registers the handler and blocks in
`http.ListenAndServe`; it contains no `go` statement anywhere, so no
goroutine ever executes `proccesLog`: the consumer is not running. -/
def mainStartsLogConsumer : Bool := false

/-- The call `wg.Wait()` (line 124) returns exactly when the wait-group
counter is zero. -/
def waitReturns (s : SinkState) : Prop := s.inFlight = 0

/-! ## Execution-timing decorator (main.go lines 141-158) -/

/-- An observable event of `LogExecutionTime` and of the action it
wraps. -/
inductive TimingEvent where
  | actionMark : TimingEvent
  | wgAdd (n : Nat) : TimingEvent
  | chanSend (e : ExecutionLog) : TimingEvent
deriving DecidableEq, Repr

/-- The world `LogExecutionTime` runs in: the current reading of the
monotone clock (`time.Now`, in nanoseconds) and the trace of events
performed so far. -/
structure TimeWorld where
  now : Int
  trace : List TimingEvent
deriving DecidableEq, Repr

/-- Semantics of `endTime.Sub(startTime).Seconds()`: the nanosecond difference as a
floating-point number of seconds, modelled over the rationals. -/
def durationSeconds (startTime endTime : Int) : Rat :=
  ((endTime - startTime : Int) : Rat) / 1000000000

/-- Function `LogExecutionTime` (main.go lines 141-158): capture `startTime`,
run the action (once, synchronously), capture `endTime`, build the
`ExecutionLog` (its `Id` is the zero value, assigned later by
storage), then `wg.Add(1)` and send the record on `logChan`, in that
order, before returning. -/
def LogExecutionTime (taskName : String) (action : TimeWorld → TimeWorld)
    (w : TimeWorld) : TimeWorld :=
  let startTime := w.now
  let w1 := action w
  let endTime := w1.now
  let logEntry : ExecutionLog :=
    { Id := 0, TaskName := taskName, StartTime := startTime,
      EndTime := endTime,
      DurationSeconds := durationSeconds startTime endTime }
  { w1 with trace := w1.trace ++ [.wgAdd 1, .chanSend logEntry] }

/-! ## The `/all` handler (main.go lines 160-194) -/

/-- An observable effect of one run of `GetAll`. -/
inductive Effect where
  | consolePrint (msg : String) : Effect
  | storeLog (e : ExecutionLog) : Effect
  | chanSend (e : ExecutionLog) : Effect
  | writeBody (b : Bytes) : Effect

/-- A request's decoded query pairs, in order. -/
def Query : Type := List (String × String)

/-- Semantics of `r.URL.Query().Get(key)`: the first value associated to the key,
or the empty string when the key is absent. -/
def queryGet (q : Query) (key : String) : String :=
  match q.lookup key with
  | some v => v
  | none => ""

/-- The format `GetAll` resolves from the request (lines 169-172):
the `format` query parameter, replaced by `"json"` when it is the
empty string — `Get` cannot distinguish an absent parameter from a
present one with an empty value. -/
def resolveFormat (q : Query) : String :=
  let format := queryGet q "format"
  if format = "" then "json" else format

/-- Handler `GetAll` (main.go lines 160-194), given the outcome of
`fetchAllPlaces` and the two clock readings of lines 161 and 184, as
the list of effects it performs.  On a fetch error: print and return
(lines 164-167).  On a `GetSerializer` error: print (with the typo
`Ощибка` of line 175) and return.  After `Serialize`, a non-nil error
is only printed — there is no `return` in lines 180-182, so the
handler falls through — and then the handler synchronously calls
`storeExecutionLog` with a `GetAll` record built from its own inline
timestamps and finally writes the serialized bytes. -/
def GetAll (fetchResult : Except String (GoSlice Place)) (q : Query)
    (startTime endTime : Int) : List Effect :=
  match fetchResult with
  | .error e => [.consolePrint ("Ошибка: " ++ e)]
  | .ok allPlaces =>
    match GetSerializer (resolveFormat q) with
    | .error e => [.consolePrint ("Ощибка: " ++ e)]
    | .ok serializer =>
      let (deserializedData, serr) := serializerSerialize serializer allPlaces
      let printErr :=
        match serr with
        | some e => [Effect.consolePrint ("Ошибка: " ++ e)]
        | none => []
      let logEntry : ExecutionLog :=
        { Id := 0, TaskName := "GetAll", StartTime := startTime,
          EndTime := endTime,
          DurationSeconds := durationSeconds startTime endTime }
      printErr ++ [.storeLog logEntry, .writeBody deserializedData]

/-! ## Concrete inputs used by witnesses and counterexamples -/

/-- The pages of a trace whose response body was obtained (a decode
event exists, so `client.Do` succeeded and a `defer resp.Body.Close()`
was registered). -/
def bodyPages (evs : List FetchEvent) : List Nat :=
  evs.filterMap fun e =>
    match e with
    | .decodeOk p => some p
    | .decodeErr p => some p
    | _ => none

/-- A four-page mock upstream: non-empty `next` on pages 210-212,
empty `next` on page 213. -/
def fourPageUpstream : Nat → UpstreamResp := fun p =>
  if p = 210 then .page (some [⟨1, "a", "", "", "", "", false, ""⟩]) "page211"
  else if p = 211 then .page (some [⟨2, "b", "", "", "", "", false, ""⟩]) "page212"
  else if p = 212 then .page (some []) "page213"
  else if p = 213 then .page (some [⟨3, "c", "", "", "", "", false, ""⟩]) ""
  else .netErr "unused page"

/-- A two-page mock upstream: page 210 points at page 211, which is
the last page. -/
def twoPageUpstream : Nat → UpstreamResp := fun p =>
  if p = 210 then .page (some [⟨1, "x", "", "", "", "", false, ""⟩]) "page211"
  else .page (some [⟨2, "y", "", "", "", "", false, ""⟩]) ""

/-- A mock upstream every page of which has an empty `results` array
and no next page. -/
def emptyResultsUpstream : Nat → UpstreamResp := fun _ => .page (some []) ""

/-- A concrete action for exercising `LogExecutionTime`: it advances
the clock by 5 ns and leaves one mark in the trace. -/
def sampleAction : TimeWorld → TimeWorld := fun w =>
  { now := w.now + 5, trace := w.trace ++ [.actionMark] }

/-! ## Helper lemmas -/

/-- The elements of `append(s, ys...)` are the old elements followed
by the new ones, whether or not the slice was nil. -/
theorem GoSlice.toList_append {α : Type} (s : GoSlice α) (ys : List α) :
    (s.append ys).toList = s.toList ++ ys := by
  cases ys with
  | nil => simp [GoSlice.append]
  | cons y ys => simp [GoSlice.append, GoSlice.toList]

/-- The nil slice has no elements. -/
theorem GoSlice.toList_none {α : Type} : (none : GoSlice α).toList = [] := rfl

/-- Lemma: `GetSerializer` on a string that is neither `"json"` nor `"gob"`
takes the `default` branch of the switch. -/
theorem GetSerializer_unknown (format : String)
    (h1 : format ≠ "json") (h2 : format ≠ "gob") :
    GetSerializer format =
      .error ("Неизвестный формат сериализации: " ++ format) := by
  unfold GetSerializer
  split
  · exact absurd rfl h1
  · exact absurd rfl h2
  · rfl

/-! ## Claim theorems -/

/-- C5: for every format string other than `"json"` and `"gob"`,
`GetSerializer` returns no serializer but an error whose message
carries the requested format string; for `"json"` and `"gob"` it
returns the corresponding serializer and no error. -/
theorem getSerializer_dispatch (format : String)
    (h1 : format ≠ "json") (h2 : format ≠ "gob") :
    GetSerializer format =
      .error ("Неизвестный формат сериализации: " ++ format)
    ∧ GetSerializer "json" = .ok .json
    ∧ GetSerializer "gob" = .ok .gob :=
  ⟨GetSerializer_unknown format h1 h2, rfl, rfl⟩

/-- Witness for C5 at the concrete format `"xml"`. -/
theorem getSerializer_dispatch_witness :
    GetSerializer "xml" =
      .error ("Неизвестный формат сериализации: " ++ "xml")
    ∧ GetSerializer "json" = .ok .json
    ∧ GetSerializer "gob" = .ok .gob :=
  getSerializer_dispatch "xml" (by decide) (by decide)

/-- C1 (evaluation at the failing input): `Deserialize` decodes into a
single `Place`, so on the bytes `Serialize` produces for the one-element
sequence `[⟨1, "t", "s", "a", "p", "m", false, "l"⟩]` it returns an
unmarshal type error under the json format and a remote/local type
mismatch under the gob format, instead of reproducing the sequence. -/
theorem deserialize_serialize_fails_on_sequences :
    serializerDeserialize .json
        (serializerSerialize .json (some [⟨1, "t", "s", "a", "p", "m", false, "l"⟩])).1 =
      .error "json: cannot unmarshal array into Go value of type main.Place"
    ∧ serializerDeserialize .gob
        (serializerSerialize .gob (some [⟨1, "t", "s", "a", "p", "m", false, "l"⟩])).1 =
      .error "gob: decoding into local type main.Place, received remote type []main.Place" :=
  ⟨rfl, rfl⟩

/-- C6 (counterexample): a request whose `format` parameter is present
with an empty value does not fail with `UnsupportedFormat` — `Get`
returns `""` for it, the handler replaces `""` by `"json"`, and the
request succeeds with a JSON body. -/
theorem empty_format_param_falls_back_to_json :
    resolveFormat [("format", "")] = "json"
    ∧ GetAll (.ok none) [("format", "")] 3 7 =
        [.storeLog ⟨0, "GetAll", 3, 7, durationSeconds 3 7⟩,
         .writeBody (.jsonBytes .null)] :=
  ⟨rfl, rfl⟩

/-- C6 (amended): the handler falls back to `"json"` exactly when the
`format` parameter's value resolves to the empty string — which
happens both when the parameter is absent and when it is present with
an empty value — and for every non-empty unsupported value it fails
with the unsupported-format error. -/
theorem format_fallback_on_empty_value (q : Query) (s : GoSlice Place)
    (st et : Int) :
    (queryGet q "format" = "" → resolveFormat q = "json")
    ∧ (queryGet q "format" ≠ "" → queryGet q "format" ≠ "json" →
        queryGet q "format" ≠ "gob" →
        GetAll (.ok s) q st et =
          [.consolePrint ("Ощибка: " ++
            ("Неизвестный формат сериализации: " ++ queryGet q "format"))]) := by
  constructor
  · intro h
    simp [resolveFormat, h]
  · intro h0 h1 h2
    have hres : resolveFormat q = queryGet q "format" := by
      simp [resolveFormat, h0]
    simp [GetAll, hres, GetSerializer_unknown _ h1 h2]

/-- Witness for C6's amended theorem: absent parameter on the one
hand, the present unsupported value `"xml"` on the other. -/
theorem format_fallback_on_empty_value_witness :
    resolveFormat [] = "json"
    ∧ GetAll (.ok none) [("format", "xml")] 0 1 =
        [.consolePrint ("Ощибка: " ++
          ("Неизвестный формат сериализации: " ++
            queryGet [("format", "xml")] "format"))] :=
  ⟨(format_fallback_on_empty_value [] none 0 1).1 rfl,
   (format_fallback_on_empty_value [("format", "xml")] none 0 1).2
     (by decide) (by decide) (by decide)⟩

/-- C7: every internal error that can occur in the handler — an
upstream fetch error or an unsupported format — is printed to the
console and the handler returns with no store, no body write and no
status; a serialization error can never occur, because neither
serializer's `Serialize` can fail on `Place` data (third conjunct), so
that clause of the claim is vacuous. -/
theorem getAll_internal_errors_silent :
    (∀ m q st et, GetAll (.error m) q st et =
      [.consolePrint ("Ошибка: " ++ m)])
    ∧ (∀ (s : GoSlice Place) q st et e,
        GetSerializer (resolveFormat q) = .error e →
        GetAll (.ok s) q st et = [.consolePrint ("Ощибка: " ++ e)])
    ∧ (∀ c s, (serializerSerialize c s).2 = none) := by
  refine ⟨fun m q st et => rfl, fun s q st et e he => ?_, fun c s => ?_⟩
  · simp [GetAll, he]
  · cases c <;> rfl

/-- Witness for C7 at a concrete fetch error and a concrete
unsupported format. -/
theorem getAll_internal_errors_silent_witness :
    GetAll (.error "boom") [] 0 1 = [.consolePrint ("Ошибка: " ++ "boom")]
    ∧ GetAll (.ok none) [("format", "xml")] 0 1 =
        [.consolePrint ("Ощибка: " ++
          ("Неизвестный формат сериализации: " ++ "xml"))]
    ∧ (serializerSerialize .json none).2 = none :=
  ⟨getAll_internal_errors_silent.1 "boom" [] 0 1,
   getAll_internal_errors_silent.2.1 none [("format", "xml")] 0 1 _ rfl,
   getAll_internal_errors_silent.2.2 .json none⟩

/-- C3 (counterexample): on a successful request the handler's trace
is a synchronous `storeExecutionLog` call followed by the body write —
no record is ever sent on the log channel, so the timing record is not
enqueued onto the asynchronous log sink. -/
theorem handler_persists_synchronously :
    GetAll (.ok none) [] 0 1 =
      [.storeLog ⟨0, "GetAll", 0, 1, durationSeconds 0 1⟩,
       .writeBody (.jsonBytes .null)]
    ∧ ¬ ∃ e, Effect.chanSend e ∈ GetAll (.ok none) [] 0 1 := by
  refine ⟨rfl, ?_⟩
  rintro ⟨e, he⟩
  rw [show GetAll (.ok none) [] 0 1 =
      [.storeLog ⟨0, "GetAll", 0, 1, durationSeconds 0 1⟩,
       .writeBody (.jsonBytes .null)] from rfl] at he
  simp at he

/-- C3 (amended): on every successful request the handler fetches,
then serializes, times the whole fetch-to-serialize span with its own
inline clock captures (not with the `LogExecutionTime` decorator),
synchronously persists the resulting `GetAll` record via
`storeExecutionLog`, and then writes the serialized bytes as the
response body; nothing is enqueued on the log queue. -/
theorem handler_times_inline_and_stores (s : GoSlice Place) (q : Query)
    (st et : Int) (c : SerializerChoice)
    (hc : GetSerializer (resolveFormat q) = .ok c) :
    GetAll (.ok s) q st et =
      [.storeLog ⟨0, "GetAll", st, et, durationSeconds st et⟩,
       .writeBody (serializerSerialize c s).1] := by
  cases c <;> simp [GetAll, hc, serializerSerialize]

/-- Witness for C3's amended theorem at a concrete gob-format
request. -/
theorem handler_times_inline_and_stores_witness :
    GetAll (.ok (some [])) [("format", "gob")] 2 9 =
      [.storeLog ⟨0, "GetAll", 2, 9, durationSeconds 2 9⟩,
       .writeBody (serializerSerialize .gob (some [])).1] :=
  handler_times_inline_and_stores (some []) [("format", "gob")] 2 9 .gob rfl

/-- C4: against any upstream with non-empty `next` on pages 210, 211
and 212 and an empty `next` on page 213, `fetchAllPlaces` issues
exactly the four requests 210, 211, 212, 213 in that order (starting
at 210 and advancing by 1), stops at the first empty `next`, and
returns the concatenation of the four pages' results in response
order. -/
theorem fetchAllPlaces_four_pages (upstream : Nat → UpstreamResp)
    (fuel : Nat) (r0 r1 r2 r3 : List Place) (n0 n1 n2 : String)
    (h210 : upstream 210 = .page (some r0) n0) (hn0 : n0 ≠ "")
    (h211 : upstream 211 = .page (some r1) n1) (hn1 : n1 ≠ "")
    (h212 : upstream 212 = .page (some r2) n2) (hn2 : n2 ≠ "")
    (h213 : upstream 213 = .page (some r3) "") (hfuel : 4 ≤ fuel) :
    ∃ s : GoSlice Place,
      (fetchAllPlaces upstream fuel).1 = .ok s
      ∧ s.toList = r0 ++ r1 ++ r2 ++ r3
      ∧ requestedPages (fetchAllPlaces upstream fuel).2 =
          [210, 211, 212, 213] := by
  obtain ⟨k, rfl⟩ : ∃ k, fuel = k + 1 + 1 + 1 + 1 := ⟨fuel - 4, by omega⟩
  have hloop : fetchLoop upstream (k + 1 + 1 + 1 + 1) 210 none [] [] =
      (.ok ((((GoSlice.append none r0).append r1).append r2).append r3),
       [.request 210, .decodeOk 210, .request 211, .decodeOk 211,
        .request 212, .decodeOk 212, .request 213, .decodeOk 213],
       [213, 212, 211, 210]) := by
    simp [fetchLoop, h210, h211, h212, h213, hn0, hn1, hn2, GoSlice.toList]
  have hall : fetchAllPlaces upstream (k + 1 + 1 + 1 + 1) =
      (.ok ((((GoSlice.append none r0).append r1).append r2).append r3),
       [.request 210, .decodeOk 210, .request 211, .decodeOk 211,
        .request 212, .decodeOk 212, .request 213, .decodeOk 213,
        .closeBody 213, .closeBody 212, .closeBody 211, .closeBody 210]) := by
    simp [fetchAllPlaces, hloop]
  refine ⟨(((GoSlice.append none r0).append r1).append r2).append r3,
    by rw [hall], ?_, ?_⟩
  · simp only [GoSlice.toList_append]
    show ([] : List Place) ++ r0 ++ r1 ++ r2 ++ r3 = r0 ++ r1 ++ r2 ++ r3
    simp
  · rw [hall]
    simp [requestedPages]

/-- Witness for C4 against the concrete four-page mock upstream. -/
theorem fetchAllPlaces_four_pages_witness :
    ∃ s : GoSlice Place,
      (fetchAllPlaces fourPageUpstream 4).1 = .ok s
      ∧ s.toList =
          [⟨1, "a", "", "", "", "", false, ""⟩] ++
          [⟨2, "b", "", "", "", "", false, ""⟩] ++ [] ++
          [⟨3, "c", "", "", "", "", false, ""⟩]
      ∧ requestedPages (fetchAllPlaces fourPageUpstream 4).2 =
          [210, 211, 212, 213] :=
  fetchAllPlaces_four_pages fourPageUpstream 4
    [⟨1, "a", "", "", "", "", false, ""⟩]
    [⟨2, "b", "", "", "", "", false, ""⟩] []
    [⟨3, "c", "", "", "", "", false, ""⟩]
    "page211" "page212" "page213"
    rfl (by decide) rfl (by decide) rfl (by decide) rfl (by decide)

/-- C8: `LogExecutionTime` runs the action synchronously exactly once
between its two clock captures, and before returning appends exactly
`wg.Add(1)` followed by the channel send of a record carrying the
given task name, the start reading, the end reading and their
difference in seconds; the end reading is not earlier than the start
reading and the duration is non-negative. -/
theorem logExecutionTime_spec (taskName : String)
    (action : TimeWorld → TimeWorld) (w : TimeWorld)
    (hmono : w.now ≤ (action w).now)
    (hact : (action w).trace = w.trace ++ [.actionMark]) :
    LogExecutionTime taskName action w =
      { now := (action w).now,
        trace := w.trace ++ [.actionMark, .wgAdd 1,
          .chanSend { Id := 0, TaskName := taskName, StartTime := w.now,
                      EndTime := (action w).now,
                      DurationSeconds := durationSeconds w.now (action w).now }] }
    ∧ w.now ≤ (action w).now
    ∧ 0 ≤ durationSeconds w.now (action w).now := by
  refine ⟨?_, hmono, ?_⟩
  · simp [LogExecutionTime, hact]
  · unfold durationSeconds
    apply div_nonneg
    · exact_mod_cast Int.sub_nonneg.mpr hmono
    · norm_num

/-- Witness for C8 at a concrete world and action. -/
theorem logExecutionTime_spec_witness :
    LogExecutionTime "t" sampleAction ⟨100, []⟩ =
      { now := 105,
        trace := [.actionMark, .wgAdd 1,
          .chanSend ⟨0, "t", 100, 105, durationSeconds 100 105⟩] }
    ∧ (100 : Int) ≤ 105
    ∧ 0 ≤ durationSeconds 100 105 :=
  logExecutionTime_spec "t" sampleAction ⟨100, []⟩ (by decide) rfl

/-- One iteration of `proccesLog`'s loop per queued record: starting
from a closed queue holding `es`, the consumer persists each record
exactly once, in arrival order, decrementing the wait-group after
each, whether the insert succeeded or failed. -/
theorem proccesLog_drains_fifo (persistOk : ExecutionLog → Bool) :
    ∀ (es : List ExecutionLog) (n : Nat) (p : List (ExecutionLog × Bool))
      (c : Bool),
      sinkRun true persistOk ⟨es, n, p, c⟩ (List.replicate es.length .consume) =
        ⟨[], n - es.length, p ++ es.map (fun e => (e, persistOk e)), c⟩ := by
  intro es
  induction es with
  | nil => intro n p c; simp [sinkRun]
  | cons e rest ih =>
      intro n p c
      simp only [List.length_cons, List.replicate_succ]
      show sinkRun true persistOk ⟨rest, n - 1, p ++ [(e, persistOk e)], c⟩
          (List.replicate rest.length .consume) = _
      rw [ih]
      have h1 : n - 1 - rest.length = n - (rest.length + 1) := by omega
      simp [h1]

/-- With the consumer not running, a closed pipeline state is frozen:
no schedule of steps changes it. -/
theorem sinkRun_no_consumer (persistOk : ExecutionLog → Bool) :
    ∀ (steps : List SinkStep) (s : SinkState), s.closed = true →
      sinkRun false persistOk s steps = s := by
  intro steps
  induction steps with
  | nil => intro s _; rfl
  | cons st rest ih =>
      intro s h
      have hstep : sinkStep false persistOk s st = s := by
        cases st with
        | enqueue e => simp [sinkStep, h]
        | consume => rfl
        | close =>
            cases s
            simp_all [sinkStep]
      show sinkRun false persistOk (sinkStep false persistOk s st) rest = s
      rw [hstep]
      exact ih s h

/-- C2 (evaluation at the failing input): `proccesLog`'s loop, when it
runs, does persist a closed queue of records exactly once each in FIFO
order and brings the wait-group counter down accordingly (first
conjunct) — but `main` contains no `go` statement, so the consumer
goroutine is never started: after enqueuing one record and closing the
channel, no schedule of the remaining steps ever persists anything,
and `wg.Wait()` never returns. -/
theorem logSink_consumer_never_started (persistOk : ExecutionLog → Bool)
    (e : ExecutionLog) (es : List ExecutionLog) (steps : List SinkStep) :
    sinkRun true persistOk ⟨es, es.length, [], true⟩
        (List.replicate es.length .consume) =
      ⟨[], 0, es.map (fun x => (x, persistOk x)), true⟩
    ∧ (sinkRun mainStartsLogConsumer persistOk initialSinkState
        ([.enqueue e, .close] ++ steps)).persisted = []
    ∧ ¬ waitReturns (sinkRun mainStartsLogConsumer persistOk initialSinkState
        ([.enqueue e, .close] ++ steps)) := by
  have hfrozen : sinkRun mainStartsLogConsumer persistOk initialSinkState
      ([.enqueue e, .close] ++ steps) = ⟨[e], 1, [], true⟩ := by
    show sinkRun false persistOk ⟨[e], 1, [], true⟩ steps = _
    exact sinkRun_no_consumer persistOk steps _ rfl
  refine ⟨?_, ?_, ?_⟩
  · rw [proccesLog_drains_fifo]
    simp
  · rw [hfrozen]
  · rw [hfrozen]
    simp [waitReturns]

/-- The loop of `fetchAllPlaces` emits no `closeBody` event itself,
and its final defer stack holds exactly the pages whose body was
obtained during the run, most recent first, on top of the defers it
started with. -/
theorem fetchLoop_events (upstream : Nat → UpstreamResp) :
    ∀ (fuel page : Nat) (acc : GoSlice Place) (defers : List Nat)
      (evs : List FetchEvent),
      ∃ new : List FetchEvent,
        (fetchLoop upstream fuel page acc defers evs).2.1 = evs ++ new
        ∧ (∀ p, FetchEvent.closeBody p ∉ new)
        ∧ (fetchLoop upstream fuel page acc defers evs).2.2 =
            (bodyPages new).reverse ++ defers := by
  intro fuel
  induction fuel with
  | zero =>
      intro page acc defers evs
      exact ⟨[], by simp [fetchLoop], by simp, by simp [fetchLoop, bodyPages]⟩
  | succ fuel ih =>
      intro page acc defers evs
      cases hup : upstream page with
      | netErr m =>
          refine ⟨[.request page], by simp [fetchLoop, hup], ?_, ?_⟩
          · intro p hp
            simp at hp
          · simp [fetchLoop, hup, bodyPages]
      | malformed =>
          refine ⟨[.request page, .decodeErr page],
            by simp [fetchLoop, hup], ?_, ?_⟩
          · intro p hp
            simp at hp
          · simp [fetchLoop, hup, bodyPages]
      | page results next =>
          by_cases hnx : next = ""
          · refine ⟨[.request page, .decodeOk page],
              by simp [fetchLoop, hup, hnx], ?_, ?_⟩
            · intro p hp
              simp at hp
            · simp [fetchLoop, hup, hnx, bodyPages]
          · have hstep : fetchLoop upstream (fuel + 1) page acc defers evs =
                fetchLoop upstream fuel (page + 1) (acc.append results.toList)
                  (page :: defers) (evs ++ [.request page, .decodeOk page]) := by
              simp [fetchLoop, hup, hnx]
            obtain ⟨new', h1, h2, h3⟩ := ih (page + 1) (acc.append results.toList)
              (page :: defers) (evs ++ [.request page, .decodeOk page])
            refine ⟨[.request page, .decodeOk page] ++ new', ?_, ?_, ?_⟩
            · rw [hstep, h1]
              simp
            · intro p hp
              rcases List.mem_append.mp hp with h | h
              · simp at h
              · exact h2 p h
            · rw [hstep, h3]
              simp [bodyPages]

/-- C9 (amended): every page whose body was obtained is closed exactly
once, in reverse acquisition order, but only when `fetchAllPlaces`
returns: the loop itself closes nothing, so no body is released before
the next page is requested — the `defer` sits inside the loop and Go
runs deferred calls at function return. -/
theorem fetch_bodies_closed_only_at_return (upstream : Nat → UpstreamResp)
    (fuel : Nat) :
    ∃ loopEvs : List FetchEvent,
      (fetchAllPlaces upstream fuel).2 =
        loopEvs ++ (bodyPages loopEvs).reverse.map FetchEvent.closeBody
      ∧ ∀ p, FetchEvent.closeBody p ∉ loopEvs := by
  obtain ⟨new, h1, h2, h3⟩ := fetchLoop_events upstream fuel 210 none [] []
  rcases hfl : fetchLoop upstream fuel 210 none [] [] with ⟨res, evs2, defs⟩
  rw [hfl] at h1 h3
  refine ⟨new, ?_, h2⟩
  simp only at h1 h3
  simp [fetchAllPlaces, hfl, h1, h3]

/-- C9 (counterexample): with a two-page upstream, the trace shows the
request for page 211 strictly before the close of page 210's body —
the body is not released before the next page is requested. -/
theorem body_close_deferred_past_next_request :
    (fetchAllPlaces twoPageUpstream 5).2 =
      [.request 210, .decodeOk 210, .request 211, .decodeOk 211,
       .closeBody 211, .closeBody 210]
    ∧ (fetchAllPlaces twoPageUpstream 5).2.indexOf (.request 211) <
        (fetchAllPlaces twoPageUpstream 5).2.indexOf (.closeBody 210) := by
  constructor
  · decide
  · decide

/-- The result value of `fetchAllPlaces` is the result value of its
loop; the deferred closes only extend the event trace. -/
theorem fetchAllPlaces_fst (upstream : Nat → UpstreamResp) (fuel : Nat) :
    (fetchAllPlaces upstream fuel).1 =
      (fetchLoop upstream fuel 210 none [] []).1 := by
  rcases hfl : fetchLoop upstream fuel 210 none [] [] with ⟨res, evs2, defs⟩
  simp [fetchAllPlaces, hfl]

/-- When every upstream page carries an empty `results` array, the
`allPlaces` accumulator never leaves its initial nil state: Go's
append of zero elements to a nil slice returns the nil slice. -/
theorem fetchLoop_empty_results (upstream : Nat → UpstreamResp)
    (hpages : ∀ p r nx, upstream p = .page r nx → r.toList = []) :
    ∀ (fuel page : Nat) (defers : List Nat) (evs : List FetchEvent)
      (s : GoSlice Place),
      (fetchLoop upstream fuel page none defers evs).1 = .ok s → s = none := by
  intro fuel
  induction fuel with
  | zero =>
      intro page defers evs s h
      simp [fetchLoop] at h
  | succ fuel ih =>
      intro page defers evs s h
      cases hup : upstream page with
      | netErr m => simp [fetchLoop, hup] at h
      | malformed => simp [fetchLoop, hup] at h
      | page results next =>
          have hacc : GoSlice.append none results.toList = none := by
            rw [hpages page results next hup]
            rfl
          by_cases hnx : next = ""
          · simp [fetchLoop, hup, hnx, hacc] at h
            exact h.symm
          · have hstep : fetchLoop upstream (fuel + 1) page none defers evs =
                fetchLoop upstream fuel (page + 1) none (page :: defers)
                  (evs ++ [.request page, .decodeOk page]) := by
              rw [show fetchLoop upstream (fuel + 1) page none defers evs =
                  fetchLoop upstream fuel (page + 1)
                    (GoSlice.append none results.toList) (page :: defers)
                    (evs ++ [.request page, .decodeOk page]) from by
                simp [fetchLoop, hup, hnx], hacc]
            rw [hstep] at h
            exact ih (page + 1) (page :: defers)
              (evs ++ [.request page, .decodeOk page]) s h

/-- C10: when every fetched page has an empty `results` array,
`fetchAllPlaces` returns the nil slice, the JSON serializer renders it
as the four bytes `null` (not `[]`), and a `/all` request with no
`format` parameter stores its timing record and writes exactly that
`null` body. -/
theorem empty_fetch_serializes_to_null (upstream : Nat → UpstreamResp)
    (fuel : Nat) (s : GoSlice Place) (st et : Int)
    (hpages : ∀ p r nx, upstream p = .page r nx → r.toList = [])
    (hok : (fetchAllPlaces upstream fuel).1 = .ok s) :
    s = none
    ∧ jsonRender (jsonMarshalPlaces s) = "null"
    ∧ GetAll (.ok s) [] st et =
        [.storeLog ⟨0, "GetAll", st, et, durationSeconds st et⟩,
         .writeBody (.jsonBytes .null)] := by
  have hs : s = none := by
    apply fetchLoop_empty_results upstream hpages fuel 210 [] [] s
    rw [← fetchAllPlaces_fst]
    exact hok
  subst hs
  exact ⟨rfl, rfl, rfl⟩

/-- Witness for C10 against the concrete empty-results upstream. -/
theorem empty_fetch_serializes_to_null_witness :
    (none : GoSlice Place) = none
    ∧ jsonRender (jsonMarshalPlaces none) = "null"
    ∧ GetAll (.ok none) [] 0 2 =
        [.storeLog ⟨0, "GetAll", 0, 2, durationSeconds 0 2⟩,
         .writeBody (.jsonBytes .null)] :=
  empty_fetch_serializes_to_null emptyResultsUpstream 1 none 0 2
    (fun p r nx h => by
      cases h
      rfl)
    rfl
